import Mathlib

/-!
Shallow embedding of the who-is-on-shift dashboard (src/app.py): the ICS
event extractor, the summary parser, the role classifiers, the shift
aggregator and the search filter, together with theorems checking the
frozen claims about them.

Python strings are modelled as Lean strings; character-level work is done
on the underlying lists of characters (ASCII data, which is all the
application's formats use).
-/

namespace WIW

/-! ### Character and string helpers (Python string primitives) -/

/-- Whitespace as recognised by Python str.strip for ASCII text. -/
def isPySpace (c : Char) : Bool :=
  c = ' ' || c = '\t' || c = '\n' || c = '\r' || c.toNat = 11 || c.toNat = 12

/-- Python str.strip on a character list: drop whitespace at both ends. -/
def trimChars (cs : List Char) : List Char :=
  ((cs.dropWhile isPySpace).reverse.dropWhile isPySpace).reverse

/-- Python str.lower on a character list (ASCII range). -/
def lowerChars (cs : List Char) : List Char :=
  cs.map Char.toLower

/-- Python s.split(sep, 1) for a nonempty separator: locate the first
occurrence of sep and return the pieces before and after it; none when
sep does not occur, which also models the Python in operator. -/
def splitOnce (cs sep : List Char) : Option (List Char × List Char) :=
  match cs with
  | [] => if sep = [] then some ([], []) else none
  | c :: rest =>
    if sep.isPrefixOf (c :: rest) then some ([], (c :: rest).drop sep.length)
    else (splitOnce rest sep).map fun p => (c :: p.1, p.2)

/-- Python substring containment (needle in hay). -/
def containsSub (hay needle : List Char) : Bool :=
  (splitOnce hay needle).isSome

def isCloseParen (c : Char) : Bool := c = ')'

/-- Python s.rstrip on the single character ) : drop every trailing
closing parenthesis. -/
def rstripParen (cs : List Char) : List Char :=
  (cs.reverse.dropWhile isCloseParen).reverse

/-! ### Datetimes: parse_ics_datetime

The source calls datetime.strptime(dt_str, "%Y%m%dT%H%M%SZ").  CPython
compiles this format to the regular expression

  (\d\d\d\d)(1[0-2]|0[1-9]|[1-9])(3[01]|[12]\d|0[1-9]|[1-9]| [1-9])T
  (2[0-3]|[0-1]\d|\d)([0-5]\d|\d)(6[0-1]|[0-5]\d|\d)Z

matched case-insensitively against the whole string with ordinary
backtracking, and then validates the resulting fields through the
datetime constructor (year at least 1, day no larger than the month
length, second at most 59).  The candidate lists below reproduce each
group's alternatives in the regex's priority order, and the nested
searches reproduce the backtracking. -/

structure ICSDateTime where
  year : Nat
  month : Nat
  day : Nat
  hour : Nat
  minute : Nat
  second : Nat
deriving DecidableEq

/-- Numeric value of an ASCII digit character. -/
def digitVal (c : Char) : Nat := c.toNat - 48

/-- Candidates for the month group 1[0-2]|0[1-9]|[1-9], in priority order. -/
def monthCands (cs : List Char) : List (Nat × List Char) :=
  (match cs with
   | c1 :: c2 :: rest =>
     if c1 = '1' && ('0' ≤ c2 && c2 ≤ '2') then [(10 + digitVal c2, rest)]
     else if c1 = '0' && ('1' ≤ c2 && c2 ≤ '9') then [(digitVal c2, rest)]
     else []
   | _ => []) ++
  (match cs with
   | c :: rest => if '1' ≤ c && c ≤ '9' then [(digitVal c, rest)] else []
   | _ => [])

/-- Candidates for the day group 3[01]|[12]\d|0[1-9]|[1-9]| [1-9]. -/
def dayCands (cs : List Char) : List (Nat × List Char) :=
  (match cs with
   | c1 :: c2 :: rest =>
     if c1 = '3' && ('0' ≤ c2 && c2 ≤ '1') then [(30 + digitVal c2, rest)]
     else if ('1' ≤ c1 && c1 ≤ '2') && c2.isDigit then
       [(10 * digitVal c1 + digitVal c2, rest)]
     else if c1 = '0' && ('1' ≤ c2 && c2 ≤ '9') then [(digitVal c2, rest)]
     else []
   | _ => []) ++
  (match cs with
   | c :: rest => if '1' ≤ c && c ≤ '9' then [(digitVal c, rest)] else []
   | _ => []) ++
  (match cs with
   | c1 :: c2 :: rest =>
     if c1 = ' ' && ('1' ≤ c2 && c2 ≤ '9') then [(digitVal c2, rest)] else []
   | _ => [])

/-- Candidates for the hour group 2[0-3]|[0-1]\d|\d. -/
def hourCands (cs : List Char) : List (Nat × List Char) :=
  (match cs with
   | c1 :: c2 :: rest =>
     if c1 = '2' && ('0' ≤ c2 && c2 ≤ '3') then [(20 + digitVal c2, rest)]
     else if ('0' ≤ c1 && c1 ≤ '1') && c2.isDigit then
       [(10 * digitVal c1 + digitVal c2, rest)]
     else []
   | _ => []) ++
  (match cs with
   | c :: rest => if c.isDigit then [(digitVal c, rest)] else []
   | _ => [])

/-- Candidates for the minute group [0-5]\d|\d. -/
def minuteCands (cs : List Char) : List (Nat × List Char) :=
  (match cs with
   | c1 :: c2 :: rest =>
     if ('0' ≤ c1 && c1 ≤ '5') && c2.isDigit then
       [(10 * digitVal c1 + digitVal c2, rest)]
     else []
   | _ => []) ++
  (match cs with
   | c :: rest => if c.isDigit then [(digitVal c, rest)] else []
   | _ => [])

/-- Candidates for the second group 6[0-1]|[0-5]\d|\d. -/
def secondCands (cs : List Char) : List (Nat × List Char) :=
  (match cs with
   | c1 :: c2 :: rest =>
     if c1 = '6' && ('0' ≤ c2 && c2 ≤ '1') then [(60 + digitVal c2, rest)]
     else if ('0' ≤ c1 && c1 ≤ '5') && c2.isDigit then
       [(10 * digitVal c1 + digitVal c2, rest)]
     else []
   | _ => []) ++
  (match cs with
   | c :: rest => if c.isDigit then [(digitVal c, rest)] else []
   | _ => [])

/-- Literal T and Z in the format are matched case-insensitively. -/
def isLitT (c : Char) : Bool := c = 'T' || c = 't'

def isLitZ (c : Char) : Bool := c = 'Z' || c = 'z'

/-- Regex phase of strptime for the fixed format: the four-digit year,
then month, day, the literal T, hour, minute, second and the literal Z,
consuming the entire input, first match in backtracking order. -/
def parseRaw (cs : List Char) : Option ICSDateTime :=
  match cs with
  | y1 :: y2 :: y3 :: y4 :: rest =>
    if y1.isDigit && y2.isDigit && y3.isDigit && y4.isDigit then
      let y := 1000 * digitVal y1 + 100 * digitVal y2 + 10 * digitVal y3 + digitVal y4
      (monthCands rest).findSome? fun mo =>
        (dayCands mo.2).findSome? fun d =>
          match d.2 with
          | t :: r3 =>
            if isLitT t then
              (hourCands r3).findSome? fun h =>
                (minuteCands h.2).findSome? fun mi =>
                  (secondCands mi.2).findSome? fun s =>
                    match s.2 with
                    | [z] => if isLitZ z then
                        some ⟨y, mo.1, d.1, h.1, mi.1, s.1⟩ else none
                    | _ => none
            else none
          | [] => none
    else none
  | _ => none

def isLeapYear (y : Nat) : Bool :=
  (y % 4 = 0 && y % 100 ≠ 0) || y % 400 = 0

def daysInMonth (y m : Nat) : Nat :=
  if m = 2 then (if isLeapYear y then 29 else 28)
  else if m = 4 || m = 6 || m = 9 || m = 11 then 30
  else 31

/-- Validation phase of strptime: the datetime constructor's range
checks on the fields produced by the regex phase. -/
def validDT (d : ICSDateTime) : Bool :=
  1 ≤ d.year && d.year ≤ 9999 && 1 ≤ d.month && d.month ≤ 12 &&
  1 ≤ d.day && d.day ≤ daysInMonth d.year d.month &&
  d.hour ≤ 23 && d.minute ≤ 59 && d.second ≤ 59

/-- parse_ics_datetime on a character list: none models the ValueError
raised on a failed match or an out-of-range field. -/
def parseDTChars (cs : List Char) : Option ICSDateTime :=
  match parseRaw cs with
  | some d => if validDT d then some d else none
  | none => none

/-- parse_ics_datetime from src/app.py. -/
def parse_ics_datetime (s : String) : Option ICSDateTime :=
  parseDTChars s.data

/-- Python comparison of timezone-aware datetimes: lexicographic on the
field tuple. -/
def ICSDateTime.le (a b : ICSDateTime) : Bool :=
  a.year < b.year || (a.year = b.year &&
    (a.month < b.month || (a.month = b.month &&
      (a.day < b.day || (a.day = b.day &&
        (a.hour < b.hour || (a.hour = b.hour &&
          (a.minute < b.minute || (a.minute = b.minute &&
            a.second ≤ b.second)))))))))

theorem ICSDateTime.le_trans {a b c : ICSDateTime}
    (h1 : a.le b = true) (h2 : b.le c = true) : a.le c = true := by
  simp only [ICSDateTime.le, Bool.or_eq_true, Bool.and_eq_true,
    decide_eq_true_eq] at h1 h2 ⊢
  omega

/-! ### ICS event extraction: parse_events_from_ics

Events are dictionaries with up to four keys; each optional field is
present exactly when its key has been assigned.  Lines are trimmed and
dispatched exactly as in the source: a BEGIN:VEVENT line opens a fresh
accumulator, an END:VEVENT line appends the accumulator to the output
when it is a non-empty dictionary (a stray END:VEVENT leaves the state
unchanged), and any other line is examined for the four tracked
prefixes only while an accumulator is open.  A malformed datetime value
raises, modelled by the error case of Except. -/

structure ICSEvent where
  start : Option ICSDateTime
  end_ : Option ICSDateTime
  summary : Option String
  location_raw : Option String
deriving DecidableEq

/-- Python truthiness of the event dictionary: at least one key present. -/
def ICSEvent.nonempty (e : ICSEvent) : Bool :=
  e.start.isSome || e.end_.isSome || e.summary.isSome || e.location_raw.isSome

def emptyEvent : ICSEvent := ⟨none, none, none, none⟩

/-- Handling of one already-trimmed line while an accumulator is open:
the four tracked prefixes update the corresponding field (a datetime
parse failure raises); any other line is ignored. -/
def fieldLineChars (cur : ICSEvent) (cs : List Char) : Except String ICSEvent :=
  if ("DTSTART:").data.isPrefixOf cs then
    match parseDTChars (cs.drop 8) with
    | some dt => .ok { cur with start := some dt }
    | none => .error (String.mk (cs.drop 8))
  else if ("DTEND:").data.isPrefixOf cs then
    match parseDTChars (cs.drop 6) with
    | some dt => .ok { cur with end_ := some dt }
    | none => .error (String.mk (cs.drop 6))
  else if ("SUMMARY:").data.isPrefixOf cs then
    .ok { cur with summary := some (String.mk (cs.drop 8)) }
  else if ("LOCATION:").data.isPrefixOf cs then
    .ok { cur with location_raw := some (String.mk (cs.drop 9)) }
  else .ok cur

/-- State of the scanning loop: events collected so far and the open
accumulator, if any. -/
def ScanState := List ICSEvent × Option ICSEvent

/-- One iteration of the line loop of parse_events_from_ics. -/
def procLine (st : List ICSEvent × Option ICSEvent) (raw : String) :
    Except String (List ICSEvent × Option ICSEvent) :=
  let line := trimChars raw.data
  if line = ("BEGIN:VEVENT").data then .ok (st.1, some emptyEvent)
  else if line = ("END:VEVENT").data then
    .ok ((match st.2 with
          | some cur => if cur.nonempty then st.1 ++ [cur] else st.1
          | none => st.1), none)
  else
    match st.2 with
    | none => .ok st
    | some cur => (fieldLineChars cur line).map fun c => (st.1, some c)

/-- The line loop itself, propagating a raised ValueError. -/
def foldProc (st : List ICSEvent × Option ICSEvent) :
    List String → Except String (List ICSEvent × Option ICSEvent)
  | [] => .ok st
  | l :: ls =>
    match procLine st l with
    | .ok st' => foldProc st' ls
    | .error e => .error e

/-- parse_events_from_ics from src/app.py, taking the document as its
list of raw lines (the result of splitlines). -/
def parse_events_from_ics (lines : List String) : Except String (List ICSEvent) :=
  match foldProc ([], none) lines with
  | .ok st => .ok st.1
  | .error e => .error e

/-- Python str.splitlines for the ASCII line terminators. -/
def splitlinesAux (cur : List Char) : List Char → List (List Char)
  | [] => if cur = [] then [] else [cur.reverse]
  | '\r' :: '\n' :: rest => cur.reverse :: splitlinesAux [] rest
  | '\r' :: rest => cur.reverse :: splitlinesAux [] rest
  | '\n' :: rest => cur.reverse :: splitlinesAux [] rest
  | c :: rest => splitlinesAux (c :: cur) rest

/-- parse_events_from_ics on a whole document text. -/
def parse_events_from_ics_text (ics_text : String) : Except String (List ICSEvent) :=
  parse_events_from_ics ((splitlinesAux [] ics_text.data).map String.mk)

/-! ### Reference decomposition of a well-formed document

A document whose marker lines form matching pairs is described by its
preamble and a list of blocks, each block carrying its content lines and
the free lines that follow its END:VEVENT marker. -/

/-- A line that is neither marker once trimmed. -/
def markerFree (l : String) : Prop :=
  trimChars l.data ≠ ("BEGIN:VEVENT").data ∧ trimChars l.data ≠ ("END:VEVENT").data

instance (l : String) : Decidable (markerFree l) := by
  unfold markerFree; infer_instance

/-- A line that does not open a block once trimmed; it may be a stray
END:VEVENT marker. -/
def noBegin (l : String) : Prop :=
  trimChars l.data ≠ ("BEGIN:VEVENT").data

instance (l : String) : Decidable (noBegin l) := by
  unfold noBegin; infer_instance

/-- The marker-delimited part of a document: each block's content lines
between its markers, followed by the free lines after its END:VEVENT. -/
def blocksDoc : List (List String × List String) → List String
  | [] => []
  | bg :: rest =>
    "BEGIN:VEVENT" :: (bg.1 ++ "END:VEVENT" :: (bg.2 ++ blocksDoc rest))

/-- Assemble a document from a preamble and blocks (content lines plus
the gap lines following each block). -/
def mkDoc (pre : List String) (blocks : List (List String × List String)) :
    List String :=
  pre ++ blocksDoc blocks

/-- Folding the tracked-field handling over a block's lines. -/
def blockFold (cur : ICSEvent) : List String → Except String ICSEvent
  | [] => .ok cur
  | l :: ls =>
    match fieldLineChars cur (trimChars l.data) with
    | .ok c => blockFold c ls
    | .error e => .error e

/-- The record a single block of content lines accumulates. -/
def blockFields (b : List String) : Except String ICSEvent :=
  blockFold emptyEvent b

/-- Sequential effectful map over a list, stopping at the first error. -/
def mapExcept (g : α → Except String β) : List α → Except String (List β)
  | [] => .ok []
  | a :: as =>
    match g a with
    | .ok b =>
      match mapExcept g as with
      | .ok bs => .ok (b :: bs)
      | .error e => .error e
    | .error e => .error e

/-- Per-block reading of a well-formed document: every block contributes
its accumulated record, and the records that populated at least one
field are kept, in document order. -/
def specEvents (bs : List (List String)) : Except String (List ICSEvent) :=
  match mapExcept blockFields bs with
  | .ok evs => .ok (evs.filter ICSEvent.nonempty)
  | .error e => .error e

/-! ### Summary parsing: extract_name_and_role -/

structure NameRole where
  name : String
  role : String
deriving DecidableEq

/-- extract_name_and_role from src/app.py: split once on the shift
delimiter; the left side, stripped, is the name; the right side is split
once on the at separator when present, otherwise stripped of every
trailing closing parenthesis; the role is the resulting piece,
stripped.  Without the delimiter the summary itself is the name and the
role is Unknown. -/
def extract_name_and_role (summary : String) : NameRole :=
  match splitOnce summary.data (" (Shift as ").data with
  | none => ⟨summary, "Unknown"⟩
  | some (namePart, rest) =>
    let rolePart :=
      match splitOnce rest (" at ").data with
      | some rp => rp.1
      | none => rstripParen rest
    ⟨String.mk (trimChars namePart), String.mk (trimChars rolePart)⟩

/-! ### Role classifiers -/

/-- classify_role_standard from src/app.py. -/
def classify_role_standard (role : String) : String :=
  let r := lowerChars role.data
  if containsSub r ("mission control").data || containsSub r ("(mc)").data then
    "MC"
  else if containsSub r ("flight operator").data || containsSub r ("(fo)").data ||
      containsSub r ("pilot").data then
    "Pilot"
  else "Other"

/-- classify_role_mc_focus from src/app.py. -/
def classify_role_mc_focus (role : String) : String :=
  let r := lowerChars role.data
  if containsSub r ("flight operator").data || containsSub r ("(fo)").data then
    "Flight Operator"
  else if containsSub r ("loader").data then "Loader"
  else if containsSub r ("collector").data then "Collector"
  else "Other"

/-! ### Shift aggregation: get_active_shifts

The site metadata (labels, flags) and the HTTP transport are outside the
modelled core: a feed is given as its site identifier together with the
fetched document's lines.  Buckets are association lists keyed by bucket
name, mirroring the role dictionaries of the source. -/

structure ShiftEntry where
  name : String
  role : String
  start : ICSDateTime
  end_ : ICSDateTime
deriving DecidableEq

/-- The body of the event loop: skip an event missing either time or not
bracketing the current instant, otherwise classify it and build its
entry. -/
def processEvent (now : ICSDateTime) (ev : ICSEvent) :
    Option (String × ShiftEntry) :=
  match ev.start, ev.end_ with
  | some s, some e =>
    if s.le now && now.le e then
      let info := extract_name_and_role (ev.summary.getD "")
      some (classify_role_standard info.role, ⟨info.name, info.role, s, e⟩)
    else none
  | _, _ => none

/-- roles[bucket].append(entry) on the association list. -/
def addToBucket (roles : List (String × List ShiftEntry)) (bucket : String)
    (entry : ShiftEntry) : List (String × List ShiftEntry) :=
  roles.map fun bk => if bk.1 = bucket then (bk.1, bk.2 ++ [entry]) else bk

/-- The event loop over one feed's extracted events. -/
def bucketsFold (now : ICSDateTime) (evs : List ICSEvent)
    (init : List (String × List ShiftEntry)) : List (String × List ShiftEntry) :=
  evs.foldl
    (fun roles ev =>
      match processEvent now ev with
      | some be => addToBucket roles be.1 be.2
      | none => roles)
    init

/-- Name order used by the per-bucket sort. -/
def nameLe (a b : ShiftEntry) : Prop := a.name ≤ b.name

instance : DecidableRel nameLe := by
  unfold nameLe; infer_instance

/-- list.sort(key=name) is the stable sort by name; a stable sort's
output is determined by the key order, so insertion sort by the same key
computes the same list as the source's sort call. -/
def sortByName (l : List ShiftEntry) : List ShiftEntry :=
  List.insertionSort nameLe l

/-- Bucket construction and per-bucket sorting for one site. -/
def siteRoles (now : ICSDateTime) (evs : List ICSEvent) :
    List (String × List ShiftEntry) :=
  (bucketsFold now evs [("MC", []), ("Pilot", []), ("Other", [])]).map
    fun bk => (bk.1, sortByName bk.2)

/-- get_active_shifts from src/app.py over the fetched feeds: one result
entry per active site, in configuration order; a ValueError raised while
parsing any feed aborts the whole aggregation. -/
def get_active_shifts (feeds : List (String × List String)) (now : ICSDateTime) :
    Except String (List (String × List (String × List ShiftEntry))) :=
  mapExcept
    (fun f =>
      match parse_events_from_ics f.2 with
      | .ok evs => .ok (f.1, siteRoles now evs)
      | .error e => .error e)
    feeds

/-- All entries of one site across its buckets, in bucket order. -/
def flattenRoles : List (String × List ShiftEntry) → List ShiftEntry
  | [] => []
  | bk :: rest => bk.2 ++ flattenRoles rest

/-! ### Search filtering: apply_search_filter -/

/-- The per-person match of the search loop: case-insensitive substring
test of the needle against the name and the role. -/
def entryMatches (needle : List Char) (p : ShiftEntry) : Bool :=
  containsSub (lowerChars p.name.data) needle ||
  containsSub (lowerChars p.role.data) needle

/-- apply_search_filter from src/app.py: an empty search text returns
the input unchanged; otherwise the lowercased, stripped text is matched
against every entry of every bucket, and a site is kept exactly when
some bucket retains an entry. -/
def apply_search_filter (all_sites : List (String × List (String × List ShiftEntry)))
    (search_text : String) : List (String × List (String × List ShiftEntry)) :=
  if search_text = "" then all_sites
  else
    let search := trimChars (lowerChars search_text.data)
    all_sites.filterMap fun site =>
      let newRoles := site.2.map fun bk => (bk.1, bk.2.filter (entryMatches search))
      if newRoles.any fun bk => !bk.2.isEmpty then some (site.1, newRoles)
      else none

/-! ### Structure lemmas for the extractor -/

theorem procLine_noBegin_none (evs : List ICSEvent) (l : String) (h : noBegin l) :
    procLine (evs, none) l = .ok (evs, none) := by
  by_cases h2 : trimChars l.data = ("END:VEVENT").data
  · simp only [procLine, if_neg h, h2]
    rfl
  · simp only [procLine, if_neg h, if_neg h2]

theorem procLine_free_some (evs : List ICSEvent) (cur : ICSEvent) (l : String)
    (h : markerFree l) :
    procLine (evs, some cur) l =
      Except.map (fun c => (evs, some c)) (fieldLineChars cur (trimChars l.data)) := by
  obtain ⟨h1, h2⟩ := h
  simp only [procLine, if_neg h1, if_neg h2]

theorem procLine_begin (evs : List ICSEvent) (o : Option ICSEvent) :
    procLine (evs, o) ("BEGIN:VEVENT") = .ok (evs, some emptyEvent) := by
  rfl

theorem procLine_end (evs : List ICSEvent) (cur : ICSEvent) :
    procLine (evs, some cur) ("END:VEVENT") =
      .ok (if cur.nonempty then evs ++ [cur] else evs, none) := by
  rfl

theorem foldProc_append (st : List ICSEvent × Option ICSEvent)
    (xs ys : List String) :
    foldProc st (xs ++ ys) =
      match foldProc st xs with
      | .ok st' => foldProc st' ys
      | .error e => .error e := by
  induction xs generalizing st with
  | nil => rfl
  | cons x xs ih =>
    simp only [List.cons_append, foldProc]
    cases procLine st x with
    | ok st' => exact ih st'
    | error e => rfl

theorem foldProc_append_ok {st st' : List ICSEvent × Option ICSEvent}
    {xs : List String} (h : foldProc st xs = .ok st') (ys : List String) :
    foldProc st (xs ++ ys) = foldProc st' ys := by
  rw [foldProc_append, h]

theorem foldProc_gap (evs : List ICSEvent) (ls : List String)
    (h : ∀ l ∈ ls, noBegin l) :
    foldProc (evs, none) ls = .ok (evs, none) := by
  induction ls with
  | nil => rfl
  | cons l ls ih =>
    have hl := h l (List.mem_cons_self l ls)
    simp only [foldProc, procLine_noBegin_none evs l hl]
    exact ih fun x hx => h x (List.mem_cons_of_mem l hx)

theorem foldProc_block (evs : List ICSEvent) (cur : ICSEvent) (b : List String)
    (h : ∀ l ∈ b, markerFree l) :
    foldProc (evs, some cur) b =
      Except.map (fun c => (evs, some c)) (blockFold cur b) := by
  induction b generalizing cur with
  | nil => rfl
  | cons l ls ih =>
    have hl := h l (List.mem_cons_self l ls)
    simp only [foldProc, blockFold, procLine_free_some evs cur l hl]
    cases fieldLineChars cur (trimChars l.data) with
    | ok c =>
      simp only [Except.map]
      exact ih c fun x hx => h x (List.mem_cons_of_mem l hx)
    | error e => rfl

/-- Hypothesis shape for a well-formed document: no content line is a
marker line, and no gap line opens a block (a gap line may be a stray
END:VEVENT marker, which the scanner ignores). -/
def blocksFree (blocks : List (List String × List String)) : Prop :=
  ∀ bg ∈ blocks, (∀ l ∈ bg.1, markerFree l) ∧ (∀ l ∈ bg.2, noBegin l)

instance (blocks : List (List String × List String)) : Decidable (blocksFree blocks) := by
  unfold blocksFree; infer_instance

theorem foldProc_blocksDoc (blocks : List (List String × List String))
    (evs : List ICSEvent) (h : blocksFree blocks) :
    foldProc (evs, none) (blocksDoc blocks) =
      Except.map (fun recs => (evs ++ recs.filter ICSEvent.nonempty, none))
        (mapExcept blockFields (blocks.map Prod.fst)) := by
  induction blocks generalizing evs with
  | nil => simp [blocksDoc, foldProc, mapExcept, Except.map]
  | cons bg blocks ih =>
    have hbg := h bg (List.mem_cons_self bg blocks)
    have hrest : blocksFree blocks := fun x hx => h x (List.mem_cons_of_mem bg hx)
    have h1 : foldProc (evs, none) (blocksDoc (bg :: blocks)) =
        foldProc (evs, some emptyEvent)
          (bg.1 ++ "END:VEVENT" :: (bg.2 ++ blocksDoc blocks)) := by
      simp only [blocksDoc, foldProc, procLine_begin]
    rw [h1]
    cases hbf : blockFold emptyEvent bg.1 with
    | error e =>
      have h2 : foldProc (evs, some emptyEvent) bg.1 = .error e := by
        rw [foldProc_block evs emptyEvent bg.1 hbg.1, hbf]; rfl
      rw [foldProc_append, h2]
      simp only [List.map_cons, mapExcept, blockFields, hbf]
      rfl
    | ok c =>
      have h2 : foldProc (evs, some emptyEvent) bg.1 = .ok (evs, some c) := by
        rw [foldProc_block evs emptyEvent bg.1 hbg.1, hbf]; rfl
      rw [foldProc_append_ok h2]
      have h3 : foldProc (evs, some c) ("END:VEVENT" :: (bg.2 ++ blocksDoc blocks)) =
          foldProc ((if c.nonempty then evs ++ [c] else evs), none)
            (bg.2 ++ blocksDoc blocks) := by
        simp only [foldProc, procLine_end]
      rw [h3, foldProc_append_ok (foldProc_gap _ bg.2 hbg.2), ih _ hrest]
      simp only [List.map_cons, mapExcept, blockFields, hbf]
      cases hm : mapExcept blockFields (blocks.map Prod.fst) with
      | error e => rfl
      | ok recs =>
        simp only [Except.map, List.filter_cons]
        cases hne : c.nonempty with
        | true => simp [List.append_assoc]
        | false => simp

/-- The extractor on a well-formed document equals the per-block reading. -/
theorem parse_mkDoc (pre : List String) (blocks : List (List String × List String))
    (hpre : ∀ l ∈ pre, noBegin l) (hblk : blocksFree blocks) :
    parse_events_from_ics (mkDoc pre blocks) = specEvents (blocks.map Prod.fst) := by
  unfold parse_events_from_ics mkDoc specEvents
  rw [foldProc_append_ok (foldProc_gap [] pre hpre)]
  rw [foldProc_blocksDoc blocks [] hblk]
  cases mapExcept blockFields (blocks.map Prod.fst) with
  | ok recs => simp [Except.map]
  | error e => rfl

/-! ### Field population inside a block -/

theorem isPrefixOf_head_ne {x y : Char} {p q cs : List Char} (hxy : x ≠ y)
    (h : (x :: p).isPrefixOf cs = true) : (y :: q).isPrefixOf cs = false := by
  cases cs with
  | nil => simp [List.isPrefixOf] at h
  | cons a cs =>
    simp only [List.isPrefixOf, Bool.and_eq_true, beq_iff_eq] at h
    obtain ⟨rfl, -⟩ := h
    simp only [List.isPrefixOf, Bool.and_eq_false_iff]
    left
    simp [hxy.symm]

theorem excl_dtstart_dtend {cs : List Char}
    (h : ("DTSTART:").data.isPrefixOf cs = true) :
    ("DTEND:").data.isPrefixOf cs = false := by
  have e1 : ("DTSTART:").data = 'D' :: 'T' :: 'S' :: ['T', 'A', 'R', 'T', ':'] := rfl
  have e2 : ("DTEND:").data = 'D' :: 'T' :: 'E' :: ['N', 'D', ':'] := rfl
  rw [e1] at h
  rw [e2]
  rcases cs with _ | ⟨a, _ | ⟨b, _ | ⟨c, cs⟩⟩⟩ <;> simp_all [List.isPrefixOf]
  obtain ⟨-, -, rfl, -⟩ := h
  intro _ _ hc
  exact absurd hc (by decide)

theorem excl_dtstart_summary {cs : List Char}
    (h : ("DTSTART:").data.isPrefixOf cs = true) :
    ("SUMMARY:").data.isPrefixOf cs = false := by
  have e1 : ("DTSTART:").data = 'D' :: ['T', 'S', 'T', 'A', 'R', 'T', ':'] := rfl
  have e2 : ("SUMMARY:").data = 'S' :: ['U', 'M', 'M', 'A', 'R', 'Y', ':'] := rfl
  rw [e1] at h
  rw [e2]
  exact isPrefixOf_head_ne (by decide) h

theorem excl_dtstart_location {cs : List Char}
    (h : ("DTSTART:").data.isPrefixOf cs = true) :
    ("LOCATION:").data.isPrefixOf cs = false := by
  have e1 : ("DTSTART:").data = 'D' :: ['T', 'S', 'T', 'A', 'R', 'T', ':'] := rfl
  have e2 : ("LOCATION:").data = 'L' :: ['O', 'C', 'A', 'T', 'I', 'O', 'N', ':'] := rfl
  rw [e1] at h
  rw [e2]
  exact isPrefixOf_head_ne (by decide) h

theorem excl_dtend_summary {cs : List Char}
    (h : ("DTEND:").data.isPrefixOf cs = true) :
    ("SUMMARY:").data.isPrefixOf cs = false := by
  have e1 : ("DTEND:").data = 'D' :: ['T', 'E', 'N', 'D', ':'] := rfl
  have e2 : ("SUMMARY:").data = 'S' :: ['U', 'M', 'M', 'A', 'R', 'Y', ':'] := rfl
  rw [e1] at h
  rw [e2]
  exact isPrefixOf_head_ne (by decide) h

theorem excl_dtend_location {cs : List Char}
    (h : ("DTEND:").data.isPrefixOf cs = true) :
    ("LOCATION:").data.isPrefixOf cs = false := by
  have e1 : ("DTEND:").data = 'D' :: ['T', 'E', 'N', 'D', ':'] := rfl
  have e2 : ("LOCATION:").data = 'L' :: ['O', 'C', 'A', 'T', 'I', 'O', 'N', ':'] := rfl
  rw [e1] at h
  rw [e2]
  exact isPrefixOf_head_ne (by decide) h

theorem excl_summary_location {cs : List Char}
    (h : ("SUMMARY:").data.isPrefixOf cs = true) :
    ("LOCATION:").data.isPrefixOf cs = false := by
  have e1 : ("SUMMARY:").data = 'S' :: ['U', 'M', 'M', 'A', 'R', 'Y', ':'] := rfl
  have e2 : ("LOCATION:").data = 'L' :: ['O', 'C', 'A', 'T', 'I', 'O', 'N', ':'] := rfl
  rw [e1] at h
  rw [e2]
  exact isPrefixOf_head_ne (by decide) h

/-- Effect of a single content line on the presence of each field. -/
theorem fieldLine_effect {cur : ICSEvent} {cs : List Char} {ev : ICSEvent}
    (h : fieldLineChars cur cs = .ok ev) :
    ev.start.isSome = (cur.start.isSome || ("DTSTART:").data.isPrefixOf cs) ∧
    ev.end_.isSome = (cur.end_.isSome || ("DTEND:").data.isPrefixOf cs) ∧
    ev.summary.isSome = (cur.summary.isSome || ("SUMMARY:").data.isPrefixOf cs) ∧
    ev.location_raw.isSome =
      (cur.location_raw.isSome || ("LOCATION:").data.isPrefixOf cs) := by
  unfold fieldLineChars at h
  split_ifs at h with h1 h2 h3 h4
  · cases hp : parseDTChars (cs.drop 8) with
    | none => rw [hp] at h; exact absurd h (by simp)
    | some dt =>
      rw [hp] at h
      simp only [Except.ok.injEq] at h
      subst h
      simp [h1, excl_dtstart_dtend h1, excl_dtstart_summary h1,
        excl_dtstart_location h1]
  · cases hp : parseDTChars (cs.drop 6) with
    | none => rw [hp] at h; exact absurd h (by simp)
    | some dt =>
      rw [hp] at h
      simp only [Except.ok.injEq] at h
      subst h
      simp [h2, eq_false h1, excl_dtend_summary h2, excl_dtend_location h2]
  · simp only [Except.ok.injEq] at h
    subst h
    simp [h3, eq_false h1, eq_false h2, excl_summary_location h3]
  · simp only [Except.ok.injEq] at h
    subst h
    simp [h4, eq_false h1, eq_false h2, eq_false h3]
  · simp only [Except.ok.injEq] at h
    subst h
    simp [eq_false h1, eq_false h2, eq_false h3, eq_false h4]

/-- Presence of each field after folding a whole block: a field is
present exactly when it was already present or some line of the block
carries the matching prefix. -/
theorem blockFold_fields {b : List String} {cur ev : ICSEvent}
    (h : blockFold cur b = .ok ev) :
    ev.start.isSome =
      (cur.start.isSome ||
        b.any fun l => ("DTSTART:").data.isPrefixOf (trimChars l.data)) ∧
    ev.end_.isSome =
      (cur.end_.isSome ||
        b.any fun l => ("DTEND:").data.isPrefixOf (trimChars l.data)) ∧
    ev.summary.isSome =
      (cur.summary.isSome ||
        b.any fun l => ("SUMMARY:").data.isPrefixOf (trimChars l.data)) ∧
    ev.location_raw.isSome =
      (cur.location_raw.isSome ||
        b.any fun l => ("LOCATION:").data.isPrefixOf (trimChars l.data)) := by
  induction b generalizing cur with
  | nil =>
    simp only [blockFold, Except.ok.injEq] at h
    subst h
    simp
  | cons l ls ih =>
    simp only [blockFold] at h
    cases hf : fieldLineChars cur (trimChars l.data) with
    | error e => rw [hf] at h; exact absurd h (by simp)
    | ok c =>
      rw [hf] at h
      obtain ⟨e1, e2, e3, e4⟩ := fieldLine_effect hf
      obtain ⟨i1, i2, i3, i4⟩ := ih h
      refine ⟨?_, ?_, ?_, ?_⟩ <;>
        simp [i1, i2, i3, i4, e1, e2, e3, e4, List.any_cons, Bool.or_assoc]

/-! ### Fatal datetime errors inside a block -/

/-- A content line whose tracked datetime value the parser rejects. -/
def badDTLine (l : String) : Prop :=
  (("DTSTART:").data.isPrefixOf (trimChars l.data) = true ∧
    parseDTChars ((trimChars l.data).drop 8) = none) ∨
  (("DTEND:").data.isPrefixOf (trimChars l.data) = true ∧
    parseDTChars ((trimChars l.data).drop 6) = none)

instance (l : String) : Decidable (badDTLine l) := by
  unfold badDTLine; infer_instance

theorem fieldLine_bad {l : String} (h : badDTLine l) (cur : ICSEvent) :
    ∃ e, fieldLineChars cur (trimChars l.data) = .error e := by
  rcases h with ⟨h1, h2⟩ | ⟨h1, h2⟩
  · refine ⟨String.mk ((trimChars l.data).drop 8), ?_⟩
    unfold fieldLineChars
    rw [if_pos h1, h2]
  · have hns : ("DTSTART:").data.isPrefixOf (trimChars l.data) = false := by
      cases hd : ("DTSTART:").data.isPrefixOf (trimChars l.data) with
      | false => rfl
      | true => rw [excl_dtstart_dtend hd] at h1; exact absurd h1 (by simp)
    refine ⟨String.mk ((trimChars l.data).drop 6), ?_⟩
    unfold fieldLineChars
    rw [if_neg (by simp [hns]), if_pos h1, h2]

theorem blockFold_bad {b : List String} (h : ∃ l ∈ b, badDTLine l)
    (cur : ICSEvent) : ∃ e, blockFold cur b = .error e := by
  induction b generalizing cur with
  | nil => simp at h
  | cons l ls ih =>
    cases hf : fieldLineChars cur (trimChars l.data) with
    | error e => exact ⟨e, by simp [blockFold, hf]⟩
    | ok c =>
      obtain ⟨w, hw, hbad⟩ := h
      rcases List.mem_cons.mp hw with rfl | hwls
      · obtain ⟨e, he⟩ := fieldLine_bad hbad cur
        rw [hf] at he
        exact absurd he (by simp)
      · obtain ⟨e, he⟩ := ih ⟨w, hwls, hbad⟩ c
        exact ⟨e, by simp [blockFold, hf, he]⟩

theorem mapExcept_bad {bs : List (List String)}
    (h : ∃ b ∈ bs, ∃ e, blockFields b = .error e) :
    ∃ e, mapExcept blockFields bs = .error e := by
  induction bs with
  | nil => simp at h
  | cons b bs ih =>
    cases hf : blockFields b with
    | error e => exact ⟨e, by simp [mapExcept, hf]⟩
    | ok c =>
      obtain ⟨w, hw, e, hbad⟩ := h
      rcases List.mem_cons.mp hw with rfl | hwbs
      · rw [hf] at hbad; exact absurd hbad (by simp)
      · obtain ⟨e', he'⟩ := ih ⟨w, hwbs, e, hbad⟩
        refine ⟨e', ?_⟩
        simp only [mapExcept, hf, he']

/-! ### Claim C1 -/

/-- Claim C1, counterexample: the document made of one matching
BEGIN:VEVENT / END:VEVENT pair with no tracked lines is one pair, yet
extraction returns no event record at all (the accumulator dictionary is
empty, hence falsy, and the source appends it only when truthy), not the
one record per pair the claim demands. -/
theorem c1_counterexample :
    parse_events_from_ics (mkDoc [] [([], [])]) = .ok [] ∧
    [(([] : List String), ([] : List String))].length = 1 :=
  ⟨rfl, rfl⟩

/-- Claim C1, amended: on any document assembled from a preamble and
matching pairs (content lines free of marker lines, preamble and gap
lines never opening a block — a stray END:VEVENT there is silently
ignored), the extractor returns, in document order, exactly one record
per pair that populated at least one tracked field, dropping the pairs
whose accumulator stayed empty; and whenever a block's accumulation
succeeds, each of the four fields is populated if and only if a line
with the corresponding prefix occurs in that block. -/
theorem c1_extraction_per_block (pre : List String)
    (blocks : List (List String × List String))
    (hpre : ∀ l ∈ pre, noBegin l) (hblk : blocksFree blocks) :
    parse_events_from_ics (mkDoc pre blocks) = specEvents (blocks.map Prod.fst) ∧
    ∀ b ev, blockFields b = .ok ev →
      ((ev.start.isSome = true ↔
          ∃ l ∈ b, ("DTSTART:").data.isPrefixOf (trimChars l.data) = true) ∧
       (ev.end_.isSome = true ↔
          ∃ l ∈ b, ("DTEND:").data.isPrefixOf (trimChars l.data) = true) ∧
       (ev.summary.isSome = true ↔
          ∃ l ∈ b, ("SUMMARY:").data.isPrefixOf (trimChars l.data) = true) ∧
       (ev.location_raw.isSome = true ↔
          ∃ l ∈ b, ("LOCATION:").data.isPrefixOf (trimChars l.data) = true)) := by
  refine ⟨parse_mkDoc pre blocks hpre hblk, ?_⟩
  intro b ev h
  obtain ⟨f1, f2, f3, f4⟩ := blockFold_fields h
  refine ⟨?_, ?_, ?_, ?_⟩ <;>
    simp only [f1, f2, f3, f4, emptyEvent, Option.isSome_none, Bool.false_or,
      List.any_eq_true]

/-- Claim C1, witness: a concrete document with a preamble, a stray
END:VEVENT, two pairs and gap lines, on which the amended theorem's
hypotheses hold. -/
theorem c1_extraction_witness :
    (∀ l ∈ (["X-WR-CALNAME:demo", "END:VEVENT"] : List String), noBegin l) ∧
    parse_events_from_ics
        (mkDoc ["X-WR-CALNAME:demo", "END:VEVENT"]
          [(["DTSTART:20250101T000000Z", "NOTE:x"], ["junk"]),
           (["SUMMARY:Bob"], [])]) =
      specEvents [["DTSTART:20250101T000000Z", "NOTE:x"], ["SUMMARY:Bob"]] :=
  ⟨by decide,
   (c1_extraction_per_block ["X-WR-CALNAME:demo", "END:VEVENT"]
      [(["DTSTART:20250101T000000Z", "NOTE:x"], ["junk"]),
       (["SUMMARY:Bob"], [])] (by decide) (by decide)).1⟩

/-! ### Claim C9 -/

/-- Modelled from the claim's words, for comparison only: a datetime
value of the exact sixteen-character YYYYMMDDTHHMMSSZ shape. -/
def matchesExactFormat (s : String) : Bool :=
  match s.data with
  | [y1, y2, y3, y4, mo1, mo2, d1, d2, t, h1, h2, mi1, mi2, s1, s2, z] =>
    y1.isDigit && y2.isDigit && y3.isDigit && y4.isDigit && mo1.isDigit &&
    mo2.isDigit && d1.isDigit && d2.isDigit && t = 'T' && h1.isDigit &&
    h2.isDigit && mi1.isDigit && mi2.isDigit && s1.isDigit && s2.isDigit &&
    z = 'Z'
  | _ => false

/-- Claim C9, counterexample: the DTSTART value 20251201T80000Z does not
match the exact YYYYMMDDTHHMMSSZ format (its hour has one digit), yet
extraction does not fail: strptime's compiled pattern accepts one- or
two-digit month, day, hour, minute and second fields, so the feed parses
and the event is kept. -/
theorem c9_counterexample :
    matchesExactFormat "20251201T80000Z" = false ∧
    parse_events_from_ics ["BEGIN:VEVENT", "DTSTART:20251201T80000Z", "END:VEVENT"] =
      .ok [⟨some ⟨2025, 12, 1, 8, 0, 0⟩, none, none, none⟩] :=
  ⟨rfl, rfl⟩

/-- Claim C9, amended: if any DTSTART: or DTEND: value inside a block of
a well-formed document is rejected by the datetime parser (which accepts
every valid value of the exact YYYYMMDDTHHMMSSZ shape but also laxer
one- or two-digit month, day, hour, minute and second fields and
lowercase t or z), extraction of that feed fails as a whole with a parse
error: no event list is returned and no per-event recovery occurs. -/
theorem c9_malformed_datetime_fatal (pre : List String)
    (blocks : List (List String × List String))
    (hpre : ∀ l ∈ pre, noBegin l) (hblk : blocksFree blocks)
    (hbad : ∃ bg ∈ blocks, ∃ l ∈ bg.1, badDTLine l) :
    ∃ msg, parse_events_from_ics (mkDoc pre blocks) = .error msg := by
  rw [parse_mkDoc pre blocks hpre hblk]
  obtain ⟨bg, hbg, hl⟩ := hbad
  have hbf : ∃ e, blockFields bg.1 = .error e := blockFold_bad hl emptyEvent
  obtain ⟨e, he⟩ := mapExcept_bad ⟨bg.1, List.mem_map_of_mem Prod.fst hbg, hbf⟩
  refine ⟨e, ?_⟩
  unfold specEvents
  rw [he]

/-- Claim C9, witness: a feed whose single event carries an RFC
3339-style DTSTART value, which the strict basic-format parser rejects,
makes the whole extraction fail. -/
theorem c9_witness :
    badDTLine ("DTSTART:2025-12-01T08:00:00Z") ∧
    ∃ msg, parse_events_from_ics
        (mkDoc [] [(["DTSTART:2025-12-01T08:00:00Z"], [])]) = .error msg :=
  ⟨by decide,
   c9_malformed_datetime_fatal [] [(["DTSTART:2025-12-01T08:00:00Z"], [])]
     (by decide) (by decide)
     ⟨(["DTSTART:2025-12-01T08:00:00Z"], []), by decide, by decide⟩⟩

/-! ### Behaviour of rstripParen -/

theorem dropWhile_paren_cons (t : List Char) :
    ∀ r : List Char, r.dropWhile isCloseParen = ')' :: t → False := by
  intro r
  induction r with
  | nil => intro h; simp [List.dropWhile] at h
  | cons x xs ih =>
    intro h
    by_cases hx : x = ')'
    · rw [List.dropWhile_cons_of_pos (by simp [isCloseParen, hx])] at h
      exact ih h
    · rw [List.dropWhile_cons_of_neg (by simp [isCloseParen, hx])] at h
      injection h with h1 h2
      exact hx h1

/-- rstripParen removes exactly the trailing run of closing parentheses:
the input is the output followed by some number of them, and the output
does not itself end in one. -/
theorem rstripParen_spec (cs : List Char) :
    ∃ k, cs = rstripParen cs ++ List.replicate k ')' ∧
      ∀ ds, rstripParen cs ≠ ds ++ [')'] := by
  refine ⟨(cs.reverse.takeWhile isCloseParen).length, ?_, ?_⟩
  · have hsplit :
        cs.reverse.takeWhile isCloseParen ++ cs.reverse.dropWhile isCloseParen =
          cs.reverse :=
      List.takeWhile_append_dropWhile isCloseParen cs.reverse
    have hrep : cs.reverse.takeWhile isCloseParen =
        List.replicate (cs.reverse.takeWhile isCloseParen).length ')' :=
      List.eq_replicate_of_mem fun b hb => by
        have := List.mem_takeWhile_imp hb
        simpa [isCloseParen] using this
    have h2 : (cs.reverse.takeWhile isCloseParen).reverse =
        List.replicate (cs.reverse.takeWhile isCloseParen).length ')' := by
      conv_lhs => rw [hrep]
      rw [List.reverse_replicate]
    conv_lhs => rw [← List.reverse_reverse cs, ← hsplit]
    rw [List.reverse_append, h2]
    rfl
  · intro ds hd
    apply dropWhile_paren_cons ds.reverse cs.reverse
    have : (rstripParen cs).reverse = cs.reverse.dropWhile isCloseParen := by
      unfold rstripParen
      rw [List.reverse_reverse]
    rw [← this, hd, List.reverse_append]
    rfl

/-! ### Claim C3 -/

/-- Claim C3, counterexample: the summary contains the shift delimiter,
its remainder Mission Control (MC)) contains no at separator, and the
claim predicts the role Mission Control (MC) (one trailing parenthesis
stripped, the role's own parenthesis kept intact); the code instead
strips every trailing parenthesis and returns Mission Control (MC. -/
theorem c3_counterexample :
    splitOnce ("Jane (Shift as Mission Control (MC))").data
        (" (Shift as ").data =
      some (("Jane").data, ("Mission Control (MC))").data) ∧
    splitOnce ("Mission Control (MC))").data (" at ").data = none ∧
    extract_name_and_role "Jane (Shift as Mission Control (MC))" =
      ⟨"Jane", "Mission Control (MC"⟩ ∧
    ("Mission Control (MC" : String) ≠ "Mission Control (MC)" :=
  ⟨rfl, rfl, rfl, by decide⟩

/-- Claim C3, amended: for every summary containing the shift delimiter
whose remainder contains no at separator, the role is that remainder
with its entire trailing run of closing parentheses removed (so a role
text ending in a parenthesis loses all its trailing closing
parentheses), then stripped of surrounding whitespace; the name is the
part before the delimiter, stripped. -/
theorem c3_role_strips_all_parens (s : String) (np rest : List Char)
    (h1 : splitOnce s.data (" (Shift as ").data = some (np, rest))
    (h2 : splitOnce rest (" at ").data = none) :
    extract_name_and_role s =
      ⟨String.mk (trimChars np), String.mk (trimChars (rstripParen rest))⟩ ∧
    ∃ k, rest = rstripParen rest ++ List.replicate k ')' ∧
      ∀ ds, rstripParen rest ≠ ds ++ [')'] := by
  constructor
  · simp only [extract_name_and_role, h1, h2]
  · exact rstripParen_spec rest

/-- Claim C3, witness: a role text with its own inner parenthesis and no
at separator. -/
theorem c3_witness :
    extract_name_and_role "Ann (Shift as Loader (x))" = ⟨"Ann", "Loader (x"⟩ :=
  (c3_role_strips_all_parens "Ann (Shift as Loader (x))" ("Ann").data
    ("Loader (x))").data rfl rfl).1

/-! ### Claim C4 -/

/-- Claim C4, counterexample: with summary Jane (Shift as  MC  at HQ),
everything before the first at separator of the right part is the
string consisting of MC with a space on either side, but the parser
returns the stripped role MC, so the claim's description of the role as
that exact prefix fails. -/
theorem c4_counterexample :
    splitOnce ("Jane (Shift as  MC  at HQ)").data (" (Shift as ").data =
      some (("Jane").data, (" MC  at HQ)").data) ∧
    splitOnce (" MC  at HQ)").data (" at ").data =
      some ((" MC ").data, ("HQ)").data) ∧
    extract_name_and_role "Jane (Shift as  MC  at HQ)" = ⟨"Jane", "MC"⟩ ∧
    ("MC" : String) ≠ " MC " :=
  ⟨rfl, rfl, rfl, by decide⟩

/-- Claim C4, amended: for every summary containing the shift delimiter
whose remainder contains the at separator, the parser returns the left
part of the first delimiter split, stripped, as the name, and everything
before the first at separator of the right part, stripped, as the role;
and the claim's end-to-end example holds: the Jane Doe summary on an
event bracketing the given instant yields exactly one Dublin-15 entry,
in bucket MC, with name Jane Doe and role Mission Control (MC). -/
theorem c4_at_branch_and_pipeline :
    (∀ (s : String) (np rest rp tail : List Char),
        splitOnce s.data (" (Shift as ").data = some (np, rest) →
        splitOnce rest (" at ").data = some (rp, tail) →
        extract_name_and_role s =
          ⟨String.mk (trimChars np), String.mk (trimChars rp)⟩) ∧
    get_active_shifts
        [("dublin15",
          ["BEGIN:VEVENT", "DTSTART:20250601T080000Z",
           "DTEND:20250601T200000Z",
           "SUMMARY:Jane Doe (Shift as Mission Control (MC) at HQ at Dublin 15 Operations Schedule)",
           "END:VEVENT"])] ⟨2025, 6, 1, 12, 0, 0⟩ =
      .ok [("dublin15",
        [("MC", [⟨"Jane Doe", "Mission Control (MC)",
                  ⟨2025, 6, 1, 8, 0, 0⟩, ⟨2025, 6, 1, 20, 0, 0⟩⟩]),
         ("Pilot", []), ("Other", [])])] := by
  constructor
  · intro s np rest rp tail h1 h2
    simp only [extract_name_and_role, h1, h2]
  · rfl

/-- Claim C4, witness: the amended branch description applied to the
claim's own example summary. -/
theorem c4_witness :
    extract_name_and_role
        "Jane Doe (Shift as Mission Control (MC) at HQ at Dublin 15 Operations Schedule)" =
      ⟨"Jane Doe", "Mission Control (MC)"⟩ :=
  c4_at_branch_and_pipeline.1
    "Jane Doe (Shift as Mission Control (MC) at HQ at Dublin 15 Operations Schedule)"
    ("Jane Doe").data
    ("Mission Control (MC) at HQ at Dublin 15 Operations Schedule)").data
    ("Mission Control (MC)").data
    ("HQ at Dublin 15 Operations Schedule)").data rfl rfl

/-! ### Claim C5 -/

/-- Claim C5: both classifiers are total with exactly the advertised
bucket codomains, the first matching keyword set wins, and the four test
vectors compute as stated. -/
theorem c5_classifiers :
    (∀ role : String,
        classify_role_standard role = "MC" ∨
        classify_role_standard role = "Pilot" ∨
        classify_role_standard role = "Other") ∧
    (∀ role : String,
        classify_role_mc_focus role = "Flight Operator" ∨
        classify_role_mc_focus role = "Loader" ∨
        classify_role_mc_focus role = "Collector" ∨
        classify_role_mc_focus role = "Other") ∧
    (∀ role : String,
        (containsSub (lowerChars role.data) (("mission control").data) ||
         containsSub (lowerChars role.data) (("(mc)").data)) = true →
        classify_role_standard role = "MC") ∧
    (∀ role : String,
        (containsSub (lowerChars role.data) (("flight operator").data) ||
         containsSub (lowerChars role.data) (("(fo)").data)) = true →
        classify_role_mc_focus role = "Flight Operator") ∧
    classify_role_standard "Mission Control (MC) at HQ" = "MC" ∧
    classify_role_standard "Flight Operator (FO)" = "Pilot" ∧
    classify_role_standard "Warehouse Loader" = "Other" ∧
    classify_role_mc_focus "Warehouse Loader" = "Loader" := by
  refine ⟨?_, ?_, ?_, ?_, rfl, rfl, rfl, rfl⟩
  · intro role
    simp only [classify_role_standard]
    split_ifs <;> simp
  · intro role
    simp only [classify_role_mc_focus]
    split_ifs <;> simp
  · intro role h
    simp only [classify_role_standard]
    rw [if_pos h]
  · intro role h
    simp only [classify_role_mc_focus]
    rw [if_pos h]

/-- Claim C5, witness: the first-match clauses applied at concrete role
texts. -/
theorem c5_witness :
    (containsSub (lowerChars ("Manna Mission Control").data)
        (("mission control").data) ||
     containsSub (lowerChars ("Manna Mission Control").data)
        (("(mc)").data)) = true ∧
    classify_role_standard "Manna Mission Control" = "MC" :=
  ⟨by decide, c5_classifiers.2.2.1 "Manna Mission Control" (by decide)⟩

/-! ### Aggregation structure lemmas -/

/-- The entry built from an event carrying both instants. -/
def eventEntry (ev : ICSEvent) (s e : ICSDateTime) : ShiftEntry :=
  ⟨(extract_name_and_role (ev.summary.getD "")).name,
   (extract_name_and_role (ev.summary.getD "")).role, s, e⟩

theorem classify_standard_cases (role : String) :
    classify_role_standard role = "MC" ∨ classify_role_standard role = "Pilot" ∨
    classify_role_standard role = "Other" := by
  simp only [classify_role_standard]
  split_ifs <;> simp

theorem processEvent_fst {now : ICSDateTime} {ev : ICSEvent}
    {pr : String × ShiftEntry} (h : processEvent now ev = some pr) :
    pr.1 = "MC" ∨ pr.1 = "Pilot" ∨ pr.1 = "Other" := by
  unfold processEvent at h
  split at h
  · split_ifs at h
    simp only [Option.some.injEq] at h
    subst h
    exact classify_standard_cases _
  · exact absurd h (by simp)

theorem processEvent_active {now : ICSDateTime} {ev : ICSEvent}
    {pr : String × ShiftEntry} (h : processEvent now ev = some pr) :
    pr.2.start.le now = true ∧ now.le pr.2.end_ = true := by
  unfold processEvent at h
  split at h
  · rename_i s e hse
    split_ifs at h with hc
    simp only [Option.some.injEq] at h
    subst h
    simpa using Bool.and_eq_true_iff.mp hc
  · exact absurd h (by simp)

theorem processEvent_of_active {now : ICSDateTime} {ev : ICSEvent}
    {s e : ICSDateTime} (hs : ev.start = some s) (he : ev.end_ = some e)
    (hact : (s.le now && now.le e) = true) :
    processEvent now ev =
      some (classify_role_standard (extract_name_and_role (ev.summary.getD "")).role,
            eventEntry ev s e) := by
  unfold processEvent
  rw [hs, he]
  simp only [hact, if_true]
  rfl

theorem processEvent_of_inactive {now : ICSDateTime} {ev : ICSEvent}
    {s e : ICSDateTime} (hs : ev.start = some s) (he : ev.end_ = some e)
    (hact : (s.le now && now.le e) = false) :
    processEvent now ev = none := by
  unfold processEvent
  rw [hs, he]
  simp [hact]

/-- Entries routed to bucket k by the event loop, in arrival order. -/
def selBucket (now : ICSDateTime) (k : String) (evs : List ICSEvent) :
    List ShiftEntry :=
  ((evs.filterMap (processEvent now)).filter fun pr => pr.1 = k).map Prod.snd

theorem selBucket_cons_none {now : ICSDateTime} {ev : ICSEvent}
    (h : processEvent now ev = none) (k : String) (evs : List ICSEvent) :
    selBucket now k (ev :: evs) = selBucket now k evs := by
  simp [selBucket, List.filterMap_cons, h]

theorem selBucket_cons_some {now : ICSDateTime} {ev : ICSEvent}
    {pr : String × ShiftEntry} (h : processEvent now ev = some pr) (k : String)
    (evs : List ICSEvent) :
    selBucket now k (ev :: evs) =
      (if pr.1 = k then [pr.2] else []) ++ selBucket now k evs := by
  simp only [selBucket, List.filterMap_cons, h, List.filter_cons]
  by_cases hk : pr.1 = k
  · simp [hk]
  · simp [hk]

theorem addToBucket_mc (mc pl ot : List ShiftEntry) (e : ShiftEntry) :
    addToBucket [("MC", mc), ("Pilot", pl), ("Other", ot)] ("MC") e =
      [("MC", mc ++ [e]), ("Pilot", pl), ("Other", ot)] := rfl

theorem addToBucket_pilot (mc pl ot : List ShiftEntry) (e : ShiftEntry) :
    addToBucket [("MC", mc), ("Pilot", pl), ("Other", ot)] ("Pilot") e =
      [("MC", mc), ("Pilot", pl ++ [e]), ("Other", ot)] := rfl

theorem addToBucket_other (mc pl ot : List ShiftEntry) (e : ShiftEntry) :
    addToBucket [("MC", mc), ("Pilot", pl), ("Other", ot)] ("Other") e =
      [("MC", mc), ("Pilot", pl), ("Other", ot ++ [e])] := rfl

/-- The event loop sends every kept entry to the bucket its classified
role names, preserving arrival order within each bucket. -/
theorem bucketsFold_eq (now : ICSDateTime) :
    ∀ (evs : List ICSEvent) (mc pl ot : List ShiftEntry),
    bucketsFold now evs [("MC", mc), ("Pilot", pl), ("Other", ot)] =
      [("MC", mc ++ selBucket now ("MC") evs),
       ("Pilot", pl ++ selBucket now ("Pilot") evs),
       ("Other", ot ++ selBucket now ("Other") evs)] := by
  intro evs
  induction evs with
  | nil => intro mc pl ot; simp [bucketsFold, selBucket]
  | cons ev evs ih =>
    intro mc pl ot
    cases hp : processEvent now ev with
    | none =>
      simp only [bucketsFold, List.foldl_cons, hp]
      rw [show (List.foldl _ _ evs : List (String × List ShiftEntry)) =
            bucketsFold now evs [("MC", mc), ("Pilot", pl), ("Other", ot)] from rfl]
      rw [ih mc pl ot, selBucket_cons_none hp, selBucket_cons_none hp,
        selBucket_cons_none hp]
    | some pr =>
      simp only [bucketsFold, List.foldl_cons, hp]
      rcases processEvent_fst hp with h1 | h1 | h1 <;>
        rw [show pr = (pr.1, pr.2) from rfl, h1]
      · rw [addToBucket_mc]
        rw [show (List.foldl _ _ evs : List (String × List ShiftEntry)) =
              bucketsFold now evs [("MC", mc ++ [pr.2]), ("Pilot", pl), ("Other", ot)]
            from rfl]
        rw [ih, selBucket_cons_some hp, selBucket_cons_some hp,
          selBucket_cons_some hp, h1]
        simp
      · rw [addToBucket_pilot]
        rw [show (List.foldl _ _ evs : List (String × List ShiftEntry)) =
              bucketsFold now evs [("MC", mc), ("Pilot", pl ++ [pr.2]), ("Other", ot)]
            from rfl]
        rw [ih, selBucket_cons_some hp, selBucket_cons_some hp,
          selBucket_cons_some hp, h1]
        simp
      · rw [addToBucket_other]
        rw [show (List.foldl _ _ evs : List (String × List ShiftEntry)) =
              bucketsFold now evs [("MC", mc), ("Pilot", pl), ("Other", ot ++ [pr.2])]
            from rfl]
        rw [ih, selBucket_cons_some hp, selBucket_cons_some hp,
          selBucket_cons_some hp, h1]
        simp

/-- Concatenating the three bucket filters permutes the routed pairs. -/
theorem filter3_perm (l : List (String × ShiftEntry))
    (h : ∀ p ∈ l, p.1 = "MC" ∨ p.1 = "Pilot" ∨ p.1 = "Other") :
    ((l.filter fun p => p.1 = "MC") ++ (l.filter fun p => p.1 = "Pilot") ++
      (l.filter fun p => p.1 = "Other")).Perm l := by
  induction l with
  | nil => simp
  | cons p l ih =>
    have hrest : ∀ q ∈ l, q.1 = "MC" ∨ q.1 = "Pilot" ∨ q.1 = "Other" :=
      fun q hq => h q (List.mem_cons_of_mem p hq)
    have hperm := ih hrest
    rcases h p (List.mem_cons_self p l) with h1 | h1 | h1
    · simp only [List.filter_cons, h1]
      simp only [decide_eq_true_eq]
      rw [if_pos trivial, if_neg (by decide), if_neg (by decide)]
      simp only [List.cons_append]
      exact hperm.cons p
    · simp only [List.filter_cons, h1]
      simp only [decide_eq_true_eq]
      rw [if_neg (by decide), if_pos trivial, if_neg (by decide)]
      rw [List.append_assoc, List.cons_append]
      refine List.perm_middle.trans (List.Perm.cons p ?_)
      rw [← List.append_assoc]
      exact hperm
    · simp only [List.filter_cons, h1]
      simp only [decide_eq_true_eq]
      rw [if_neg (by decide), if_neg (by decide), if_pos trivial]
      exact List.perm_middle.trans (hperm.cons p)

theorem mem_flattenRoles {roles : List (String × List ShiftEntry)}
    {bk : String × List ShiftEntry} (hbk : bk ∈ roles) {p : ShiftEntry}
    (hp : p ∈ bk.2) : p ∈ flattenRoles roles := by
  induction roles with
  | nil => simp at hbk
  | cons r l ih =>
    rcases List.mem_cons.mp hbk with rfl | hbl
    · exact List.mem_append.mpr (Or.inl hp)
    · exact List.mem_append.mpr (Or.inr (ih hbl))

/-- One site's flattened buckets are a permutation of the entries the
event loop keeps, so membership questions reduce to the loop's filter. -/
theorem flattenRoles_siteRoles (now : ICSDateTime) (evs : List ICSEvent) :
    (flattenRoles (siteRoles now evs)).Perm
      ((evs.filterMap (processEvent now)).map Prod.snd) := by
  unfold siteRoles
  rw [bucketsFold_eq now evs [] [] []]
  simp only [List.map_cons, List.map_nil, List.nil_append, flattenRoles,
    List.append_nil]
  have p1 : (sortByName (selBucket now ("MC") evs)).Perm
      (selBucket now ("MC") evs) := List.perm_insertionSort nameLe _
  have p2 : (sortByName (selBucket now ("Pilot") evs)).Perm
      (selBucket now ("Pilot") evs) := List.perm_insertionSort nameLe _
  have p3 : (sortByName (selBucket now ("Other") evs)).Perm
      (selBucket now ("Other") evs) := List.perm_insertionSort nameLe _
  refine (p1.append (p2.append p3)).trans ?_
  have hall : ∀ pr ∈ evs.filterMap (processEvent now),
      pr.1 = "MC" ∨ pr.1 = "Pilot" ∨ pr.1 = "Other" := by
    intro pr hpr
    obtain ⟨ev, hev, he⟩ := List.mem_filterMap.mp hpr
    exact processEvent_fst he
  have hp3 := filter3_perm (evs.filterMap (processEvent now)) hall
  simp only [selBucket]
  rw [← List.map_append, ← List.map_append, ← List.append_assoc]
  exact hp3.map Prod.snd

theorem mapExcept_ok_mem {α β : Type} {g : α → Except String β} :
    ∀ {l : List α} {bs : List β}, mapExcept g l = .ok bs →
      ∀ b ∈ bs, ∃ a ∈ l, g a = .ok b := by
  intro l
  induction l with
  | nil =>
    intro bs h b hb
    simp only [mapExcept, Except.ok.injEq] at h
    subst h
    simp at hb
  | cons a as ih =>
    intro bs h b hb
    cases hg : g a with
    | error e =>
      simp only [mapExcept, hg] at h
      exact absurd h (by simp)
    | ok b0 =>
      cases hm : mapExcept g as with
      | error e =>
        simp only [mapExcept, hg, hm] at h
        exact absurd h (by simp)
      | ok bs0 =>
        simp only [mapExcept, hg, hm, Except.ok.injEq] at h
        subst h
        rcases List.mem_cons.mp hb with rfl | hb0
        · exact ⟨a, List.mem_cons_self a as, hg⟩
        · obtain ⟨a', ha', hga'⟩ := ih hm b hb0
          exact ⟨a', List.mem_cons_of_mem a ha', hga'⟩

theorem mapExcept_ok_get {α β : Type} {g : α → Except String β} :
    ∀ {l : List α} {bs : List β}, mapExcept g l = .ok bs →
      bs.length = l.length ∧
      ∀ i (hif : i < l.length) (hib : i < bs.length),
        g (l.get ⟨i, hif⟩) = .ok (bs.get ⟨i, hib⟩) := by
  intro l
  induction l with
  | nil =>
    intro bs h
    simp only [mapExcept, Except.ok.injEq] at h
    subst h
    exact ⟨rfl, fun i hif => by simp at hif⟩
  | cons a as ih =>
    intro bs h
    cases hg : g a with
    | error e =>
      simp only [mapExcept, hg] at h
      exact absurd h (by simp)
    | ok b0 =>
      cases hm : mapExcept g as with
      | error e =>
        simp only [mapExcept, hg, hm] at h
        exact absurd h (by simp)
      | ok bs0 =>
        simp only [mapExcept, hg, hm, Except.ok.injEq] at h
        subst h
        obtain ⟨hlen, hget⟩ := ih hm
        refine ⟨by simp [hlen], ?_⟩
        intro i hif hib
        cases i with
        | zero => simpa using hg
        | succ j =>
          simp only [List.get_cons_succ]
          exact hget j (Nat.lt_of_succ_lt_succ hif) (Nat.lt_of_succ_lt_succ hib)

theorem nodup_keys_eq {α β : Type} [DecidableEq α] {l : List (α × β)}
    (h : (l.map Prod.fst).Nodup) {a b : α × β} (ha : a ∈ l) (hb : b ∈ l)
    (hfst : a.1 = b.1) : a = b := by
  induction l with
  | nil => simp at ha
  | cons x l ih =>
    simp only [List.map_cons, List.nodup_cons] at h
    rcases List.mem_cons.mp ha with rfl | ha' <;>
      rcases List.mem_cons.mp hb with rfl | hb'
    · rfl
    · exact absurd (hfst ▸ List.mem_map_of_mem Prod.fst hb') h.1
    · exact absurd (hfst ▸ List.mem_map_of_mem Prod.fst ha') h.1
    · exact ih h.2 ha' hb'

/-- Every site of a successful aggregation comes from a feed, carrying
that feed's identifier and the buckets built from its parsed events. -/
theorem get_active_shifts_site {feeds : List (String × List String)}
    {now : ICSDateTime} {sites : List (String × List (String × List ShiftEntry))}
    (h : get_active_shifts feeds now = .ok sites)
    {site : String × List (String × List ShiftEntry)} (hs : site ∈ sites) :
    ∃ f ∈ feeds, ∃ evs, parse_events_from_ics f.2 = .ok evs ∧
      site = (f.1, siteRoles now evs) := by
  obtain ⟨f, hf, hgf⟩ := mapExcept_ok_mem h site hs
  cases hp : parse_events_from_ics f.2 with
  | error e =>
    simp only [hp] at hgf
    exact absurd hgf (by simp)
  | ok evs =>
    simp only [hp, Except.ok.injEq] at hgf
    exact ⟨f, hf, evs, hp, hgf.symm⟩

theorem get_active_shifts_fst :
    ∀ {feeds : List (String × List String)} {now : ICSDateTime}
      {sites : List (String × List (String × List ShiftEntry))},
      get_active_shifts feeds now = .ok sites →
      sites.map Prod.fst = feeds.map Prod.fst := by
  intro feeds
  induction feeds with
  | nil =>
    intro now sites h
    simp only [get_active_shifts, mapExcept, Except.ok.injEq] at h
    subst h
    rfl
  | cons f fs ih =>
    intro now sites h
    simp only [get_active_shifts, mapExcept] at h
    cases hp : parse_events_from_ics f.2 with
    | error e =>
      simp only [hp] at h
      exact absurd h (by simp)
    | ok evs =>
      simp only [hp] at h
      cases hm : mapExcept
          (fun f =>
            match parse_events_from_ics f.2 with
            | .ok evs => .ok (f.1, siteRoles now evs)
            | .error e => .error e) fs with
      | error e =>
        rw [hm] at h
        exact absurd h (by simp)
      | ok rest =>
        rw [hm] at h
        simp only [Except.ok.injEq] at h
        subst h
        simp only [List.map_cons]
        congr 1
        exact ih (show get_active_shifts fs now = .ok rest from hm)

/-! ### Claim C2 -/

/-- Claim C2, counterexample: an active event whose summary is the
degenerate text consisting of the delimiter and a parenthesis alone
yields an aggregated entry whose name and role are both the empty
string, refuting the non-emptiness invariant (start less-or-equal end
does hold). -/
theorem c2_counterexample :
    get_active_shifts
        [("d", ["BEGIN:VEVENT", "DTSTART:20250101T000000Z",
                "DTEND:20250101T120000Z", "SUMMARY: (Shift as )",
                "END:VEVENT"])] ⟨2025, 1, 1, 6, 0, 0⟩ =
      .ok [("d", [("MC", []), ("Pilot", []),
        ("Other", [⟨"", "", ⟨2025, 1, 1, 0, 0, 0⟩, ⟨2025, 1, 1, 12, 0, 0⟩⟩])])] ∧
    ("" : String).length = 0 :=
  ⟨rfl, rfl⟩

/-- Claim C2, amended: every shift entry present in the output of
get_active_shifts satisfies start less-or-equal end; its name and role,
however, can be empty (for degenerate summaries), so only the interval
invariant holds. -/
theorem c2_start_le_end (feeds : List (String × List String))
    (now : ICSDateTime)
    (sites : List (String × List (String × List ShiftEntry)))
    (h : get_active_shifts feeds now = .ok sites)
    (site : String × List (String × List ShiftEntry)) (hsite : site ∈ sites)
    (bk : String × List ShiftEntry) (hbk : bk ∈ site.2)
    (p : ShiftEntry) (hp : p ∈ bk.2) : p.start.le p.end_ = true := by
  obtain ⟨f, hf, evs, hparse, rfl⟩ := get_active_shifts_site h hsite
  have hmem : p ∈ flattenRoles (siteRoles now evs) := mem_flattenRoles hbk hp
  have hmem2 := (flattenRoles_siteRoles now evs).mem_iff.mp hmem
  obtain ⟨pr, hpr, rfl⟩ := List.mem_map.mp hmem2
  obtain ⟨ev, hev, hevp⟩ := List.mem_filterMap.mp hpr
  obtain ⟨h1, h2⟩ := processEvent_active hevp
  exact ICSDateTime.le_trans h1 h2

/-- Claim C2, witness: the interval invariant read off a concrete
aggregation containing one active event. -/
theorem c2_witness :
    ICSDateTime.le ⟨2025, 1, 1, 0, 0, 0⟩ ⟨2025, 1, 1, 12, 0, 0⟩ = true :=
  c2_start_le_end
    [("d", ["BEGIN:VEVENT", "DTSTART:20250101T000000Z",
            "DTEND:20250101T120000Z", "SUMMARY: (Shift as )", "END:VEVENT"])]
    ⟨2025, 1, 1, 6, 0, 0⟩
    [("d", [("MC", []), ("Pilot", []),
      ("Other", [⟨"", "", ⟨2025, 1, 1, 0, 0, 0⟩, ⟨2025, 1, 1, 12, 0, 0⟩⟩])])]
    rfl
    ("d", [("MC", []), ("Pilot", []),
      ("Other", [⟨"", "", ⟨2025, 1, 1, 0, 0, 0⟩, ⟨2025, 1, 1, 12, 0, 0⟩⟩])])
    (by decide)
    ("Other", [⟨"", "", ⟨2025, 1, 1, 0, 0, 0⟩, ⟨2025, 1, 1, 12, 0, 0⟩⟩])
    (by decide)
    ⟨"", "", ⟨2025, 1, 1, 0, 0, 0⟩, ⟨2025, 1, 1, 12, 0, 0⟩⟩
    (by decide)

/-! ### Claim C6 -/

/-- Claim C6: an event carrying both instants contributes its entry to
the site's buckets exactly when start is less-or-equal now and now is
less-or-equal end, the closed interval with both bounds inclusive. -/
theorem c6_active_interval (feeds : List (String × List String))
    (now : ICSDateTime)
    (sites : List (String × List (String × List ShiftEntry)))
    (h : get_active_shifts feeds now = .ok sites)
    (i : Nat) (hif : i < feeds.length) (his : i < sites.length)
    (evs : List ICSEvent)
    (hparse : parse_events_from_ics (feeds.get ⟨i, hif⟩).2 = .ok evs)
    (ev : ICSEvent) (hev : ev ∈ evs) (s e : ICSDateTime)
    (hs : ev.start = some s) (he : ev.end_ = some e) :
    eventEntry ev s e ∈ flattenRoles (sites.get ⟨i, his⟩).2 ↔
      (s.le now = true ∧ now.le e = true) := by
  obtain ⟨-, hget⟩ := mapExcept_ok_get h
  have hgi := hget i hif his
  simp only [hparse, Except.ok.injEq] at hgi
  have hsite2 : (sites.get ⟨i, his⟩).2 = siteRoles now evs := by rw [← hgi]
  rw [hsite2]
  constructor
  · intro hmem
    have hmem2 := (flattenRoles_siteRoles now evs).mem_iff.mp hmem
    obtain ⟨pr, hpr, heq⟩ := List.mem_map.mp hmem2
    obtain ⟨ev', hev', hevp'⟩ := List.mem_filterMap.mp hpr
    obtain ⟨h1, h2⟩ := processEvent_active hevp'
    rw [heq] at h1 h2
    exact ⟨h1, h2⟩
  · rintro ⟨h1, h2⟩
    have hpe := processEvent_of_active hs he (by rw [h1, h2]; rfl)
    have hpr : (classify_role_standard
          (extract_name_and_role (ev.summary.getD "")).role,
        eventEntry ev s e) ∈ evs.filterMap (processEvent now) :=
      List.mem_filterMap.mpr ⟨ev, hev, hpe⟩
    have hmem2 : eventEntry ev s e ∈
        (evs.filterMap (processEvent now)).map Prod.snd :=
      List.mem_map.mpr ⟨_, hpr, rfl⟩
    exact (flattenRoles_siteRoles now evs).mem_iff.mpr hmem2

/-- Claim C6, witness: the interval criterion instantiated on a concrete
feed with the current instant inside the event's interval. -/
theorem c6_witness :
    eventEntry
        ⟨some ⟨2025, 6, 1, 8, 0, 0⟩, some ⟨2025, 6, 1, 20, 0, 0⟩,
         some "Jane Doe (Shift as Mission Control (MC) at HQ at Dublin 15 Operations Schedule)",
         none⟩ ⟨2025, 6, 1, 8, 0, 0⟩ ⟨2025, 6, 1, 20, 0, 0⟩ ∈
      flattenRoles
        (([("dublin15",
            [("MC", [⟨"Jane Doe", "Mission Control (MC)",
                      ⟨2025, 6, 1, 8, 0, 0⟩, ⟨2025, 6, 1, 20, 0, 0⟩⟩]),
             ("Pilot", []), ("Other", [])])] :
          List (String × List (String × List ShiftEntry))).get ⟨0, by decide⟩).2 ↔
      (ICSDateTime.le ⟨2025, 6, 1, 8, 0, 0⟩ ⟨2025, 6, 1, 12, 0, 0⟩ = true ∧
       ICSDateTime.le ⟨2025, 6, 1, 12, 0, 0⟩ ⟨2025, 6, 1, 20, 0, 0⟩ = true) :=
  c6_active_interval
    [("dublin15",
      ["BEGIN:VEVENT", "DTSTART:20250601T080000Z", "DTEND:20250601T200000Z",
       "SUMMARY:Jane Doe (Shift as Mission Control (MC) at HQ at Dublin 15 Operations Schedule)",
       "END:VEVENT"])]
    ⟨2025, 6, 1, 12, 0, 0⟩
    [("dublin15",
      [("MC", [⟨"Jane Doe", "Mission Control (MC)",
                ⟨2025, 6, 1, 8, 0, 0⟩, ⟨2025, 6, 1, 20, 0, 0⟩⟩]),
       ("Pilot", []), ("Other", [])])]
    rfl 0 (by decide) (by decide)
    [⟨some ⟨2025, 6, 1, 8, 0, 0⟩, some ⟨2025, 6, 1, 20, 0, 0⟩,
      some "Jane Doe (Shift as Mission Control (MC) at HQ at Dublin 15 Operations Schedule)",
      none⟩]
    rfl
    ⟨some ⟨2025, 6, 1, 8, 0, 0⟩, some ⟨2025, 6, 1, 20, 0, 0⟩,
     some "Jane Doe (Shift as Mission Control (MC) at HQ at Dublin 15 Operations Schedule)",
     none⟩
    (by decide)
    ⟨2025, 6, 1, 8, 0, 0⟩ ⟨2025, 6, 1, 20, 0, 0⟩ rfl rfl

/-! ### Claim C7 -/

/-- Claim C7: a successful aggregation lists every configured site, in
configuration order, and each site carries exactly the three standard
bucket keys MC, Pilot, Other, even when all of them are empty. -/
theorem c7_sites_and_buckets (feeds : List (String × List String))
    (now : ICSDateTime)
    (sites : List (String × List (String × List ShiftEntry)))
    (h : get_active_shifts feeds now = .ok sites) :
    sites.map Prod.fst = feeds.map Prod.fst ∧
    ∀ site ∈ sites, site.2.map Prod.fst = ["MC", "Pilot", "Other"] := by
  refine ⟨get_active_shifts_fst h, ?_⟩
  intro site hsite
  obtain ⟨f, hf, evs, hp, rfl⟩ := get_active_shifts_site h hsite
  show (siteRoles now evs).map Prod.fst = _
  unfold siteRoles
  rw [bucketsFold_eq now evs [] [] []]
  rfl

/-- Claim C7, witness: a configured site whose feed has no events at all
still appears with the three bucket keys, all empty. -/
theorem c7_witness :
    get_active_shifts [("espoo", [])] ⟨2025, 1, 1, 0, 0, 0⟩ =
      .ok [("espoo", [("MC", []), ("Pilot", []), ("Other", [])])] ∧
    (("espoo", [("MC", ([] : List ShiftEntry)), ("Pilot", []),
      ("Other", [])]) : String × List (String × List ShiftEntry)).2.map
        Prod.fst = ["MC", "Pilot", "Other"] :=
  ⟨rfl,
   (c7_sites_and_buckets [("espoo", [])] ⟨2025, 1, 1, 0, 0, 0⟩
      [("espoo", [("MC", []), ("Pilot", []), ("Other", [])])] rfl).2
     ("espoo", [("MC", []), ("Pilot", []), ("Other", [])]) (by decide)⟩

/-! ### Search filter lemmas -/

theorem containsSub_nil (hay : List Char) : containsSub hay [] = true := by
  cases hay with
  | nil => rfl
  | cons c cs => simp [containsSub, splitOnce, List.isPrefixOf]

theorem entryMatches_nil (p : ShiftEntry) : entryMatches [] p = true := by
  unfold entryMatches
  rw [containsSub_nil]
  rfl

theorem roles_map_filter_nil (roles : List (String × List ShiftEntry)) :
    (roles.map fun bk => (bk.1, bk.2.filter (entryMatches []))) = roles := by
  induction roles with
  | nil => rfl
  | cons bk l ih =>
    have hf : bk.2.filter (entryMatches []) = bk.2 :=
      List.filter_eq_self.mpr fun a _ => entryMatches_nil a
    simp [hf, ih]

theorem filterMap_if_eq_filter {α : Type} (p : α → Bool) (l : List α) :
    (l.filterMap fun a => if p a then some a else none) = l.filter p := by
  induction l with
  | nil => rfl
  | cons a l ih =>
    by_cases hp : p a = true
    · simp [List.filterMap_cons, List.filter_cons, hp, ih]
    · simp [List.filterMap_cons, List.filter_cons,
        Bool.eq_false_iff.mpr hp, ih]

/-! ### Claim C8 -/

/-- Claim C8: the empty search text returns the input unchanged; and for
a non-empty search text, a configured site none of whose entries matches
the case-insensitive substring search over name and role disappears from
the filtered result. -/
theorem c8_search_filter :
    (∀ sites : List (String × List (String × List ShiftEntry)),
        apply_search_filter sites "" = sites) ∧
    (∀ (sites : List (String × List (String × List ShiftEntry)))
        (search : String) (sid : String)
        (roles : List (String × List ShiftEntry)),
        search ≠ "" →
        (sites.map Prod.fst).Nodup →
        (sid, roles) ∈ sites →
        (∀ bk ∈ roles, ∀ p ∈ bk.2,
          entryMatches (trimChars (lowerChars search.data)) p = false) →
        sid ∉ (apply_search_filter sites search).map Prod.fst) := by
  constructor
  · intro sites
    unfold apply_search_filter
    rw [if_pos rfl]
  · intro sites search sid roles hne hnodup hmem hnomatch hcontra
    unfold apply_search_filter at hcontra
    rw [if_neg hne] at hcontra
    obtain ⟨x, hx, hfst⟩ := List.mem_map.mp hcontra
    obtain ⟨site', hsite', hg⟩ := List.mem_filterMap.mp hx
    by_cases hc : ((site'.2.map fun bk =>
        (bk.1, bk.2.filter (entryMatches (trimChars (lowerChars search.data))))).any
          fun bk => !bk.2.isEmpty) = true
    · rw [if_pos hc] at hg
      simp only [Option.some.injEq] at hg
      have hfst' : site'.1 = sid := by rw [← hfst, ← hg]
      have hsame : site' = (sid, roles) :=
        nodup_keys_eq hnodup hsite' hmem hfst'
      subst hsame
      have hfalse : ((roles.map fun bk =>
          (bk.1, bk.2.filter (entryMatches (trimChars (lowerChars search.data))))).any
            fun bk => !bk.2.isEmpty) = false := by
        rw [List.any_eq_false]
        intro bk hbk
        obtain ⟨bk0, hbk0, rfl⟩ := List.mem_map.mp hbk
        have hnil : bk0.2.filter (entryMatches (trimChars (lowerChars search.data))) = [] :=
          List.filter_eq_nil_iff.mpr fun a ha => by
            simp [hnomatch bk0 hbk0 a ha]
        simp [hnil]
      rw [hc] at hfalse
      exact absurd hfalse (by simp)
    · rw [if_neg hc] at hg
      exact absurd hg (by simp)

/-- Claim C8, witness: the identity on a concrete structure, and the
disappearance of a site whose single entry matches nothing. -/
theorem c8_witness :
    apply_search_filter
        [("b", [("MC", [⟨"Zoe", "Pilot", ⟨2025, 1, 1, 0, 0, 0⟩,
                         ⟨2025, 1, 1, 1, 0, 0⟩⟩]), ("Pilot", []),
                ("Other", [])])] "" =
      [("b", [("MC", [⟨"Zoe", "Pilot", ⟨2025, 1, 1, 0, 0, 0⟩,
                       ⟨2025, 1, 1, 1, 0, 0⟩⟩]), ("Pilot", []),
              ("Other", [])])] ∧
    ("b" : String) ∉
      (apply_search_filter
        [("b", [("MC", [⟨"Zoe", "Pilot", ⟨2025, 1, 1, 0, 0, 0⟩,
                         ⟨2025, 1, 1, 1, 0, 0⟩⟩]), ("Pilot", []),
                ("Other", [])])] "zz").map Prod.fst :=
  ⟨c8_search_filter.1 _,
   c8_search_filter.2
     [("b", [("MC", [⟨"Zoe", "Pilot", ⟨2025, 1, 1, 0, 0, 0⟩,
                      ⟨2025, 1, 1, 1, 0, 0⟩⟩]), ("Pilot", []), ("Other", [])])]
     "zz" "b"
     [("MC", [⟨"Zoe", "Pilot", ⟨2025, 1, 1, 0, 0, 0⟩,
               ⟨2025, 1, 1, 1, 0, 0⟩⟩]), ("Pilot", []), ("Other", [])]
     (by decide) (by decide) (by decide) (by decide)⟩

/-! ### Claim C10 -/

/-- Claim C10: a whitespace-only search text is not the identity: the
empty-string shortcut is skipped, the lowercased and stripped needle is
empty and matches every entry, so every person is retained, but every
site whose buckets are all empty is dropped from the result. -/
theorem c10_whitespace_search
    (sites : List (String × List (String × List ShiftEntry)))
    (search : String) (h1 : search ≠ "")
    (h2 : trimChars (lowerChars search.data) = []) :
    apply_search_filter sites search =
      sites.filter fun site => site.2.any fun bk => !bk.2.isEmpty := by
  unfold apply_search_filter
  rw [if_neg h1]
  simp only [h2]
  refine (List.filterMap_congr ?_).trans
    (filterMap_if_eq_filter (fun site => site.2.any fun bk => !bk.2.isEmpty) sites)
  intro site hsite
  rw [roles_map_filter_nil site.2]

/-- Claim C10, witness: a two-space search drops the empty site and
keeps the inhabited one whole. -/
theorem c10_witness :
    ("  " : String) ≠ "" ∧
    trimChars (lowerChars ("  ").data) = [] ∧
    apply_search_filter
        [("a", [("MC", []), ("Pilot", []), ("Other", [])]),
         ("b", [("MC", [⟨"Zoe", "Pilot", ⟨2025, 1, 1, 0, 0, 0⟩,
                         ⟨2025, 1, 1, 1, 0, 0⟩⟩]), ("Pilot", []),
                ("Other", [])])] "  " =
      [("b", [("MC", [⟨"Zoe", "Pilot", ⟨2025, 1, 1, 0, 0, 0⟩,
                       ⟨2025, 1, 1, 1, 0, 0⟩⟩]), ("Pilot", []),
              ("Other", [])])] :=
  ⟨by decide, rfl,
   (c10_whitespace_search
      [("a", [("MC", []), ("Pilot", []), ("Other", [])]),
       ("b", [("MC", [⟨"Zoe", "Pilot", ⟨2025, 1, 1, 0, 0, 0⟩,
                       ⟨2025, 1, 1, 1, 0, 0⟩⟩]), ("Pilot", []),
              ("Other", [])])] "  " (by decide) rfl).trans rfl⟩

end WIW

